import Mathlib

/-!
Shallow embedding of the docsie-connector sync pipeline
(rich-text-to-Markdown converter, record transformer, retry helper,
destination uploader, paginated fetch, API-error construction, and the
sync orchestrator), with theorems settling the specification claims.
-/

namespace DocsieConnector

/-! ## Data model (src/docsie/types.ts)

`ProseMirrorNode`: `type`, optional `attrs.level`, optional `text`,
optional child list (an absent list and an empty list behave identically
in every consumer, so both are modelled as `[]`). -/

inductive PMNode : Type where
  | mk (ty : String) (level : Option Nat) (text : Option String)
       (content : List PMNode) : PMNode


def PMNode.ty : PMNode → String
  | .mk t _ _ _ => t

def PMNode.level : PMNode → Option Nat
  | .mk _ l _ _ => l

def PMNode.text : PMNode → Option String
  | .mk _ _ t _ => t

def PMNode.content : PMNode → List PMNode
  | .mk _ _ _ c => c

/-- `DocBlock`: Draft.js-style block.  Only the fields the converter
reads are modelled: `type`, `text` (required string in the TS interface),
`data.src`, `data.label`, and the nested ProseMirror `content` list. -/
structure DocBlock where
  ty : String
  text : String
  dataSrc : Option String := none
  dataLabel : Option String := none
  content : List PMNode := []


/-- `DocContent`: an article's `doc` payload (`entityMap` is unused). -/
structure DocContent where
  blocks : List DocBlock


/-- `DocsieArticle`: the fields consumed by the pipeline
(`id`, `name`, `slug`, `template`, `tags`, `doc`). -/
structure DocsieArticle where
  id : String
  name : String
  slug : String := ""
  template : String := ""
  tags : List String := []
  doc : DocContent


/-! ## Rich-text-to-Markdown converter (src/docsie/content.ts) -/

/-- `(node.attrs?.level as number) || 2`: an absent level or the (falsy)
level 0 defaults to 2. -/
def pmLevel : Option Nat → Nat
  | some n => if n = 0 then 2 else n
  | none => 2

/-- `node.text || ""` -/
def optText : Option String → String
  | some t => t
  | none => ""

mutual

/-- `extractProseMirrorText`: recursively extract Markdown-ish text from a
ProseMirror node tree. -/
def extractPMText (node : PMNode) : String :=
  match node with
  | .mk ty lvl tx content =>
    if ty = "text" then optText tx
    else if content.isEmpty then optText tx
    else
      let childTexts := extractPMList content
      let joined := String.join childTexts
      if ty = "heading" then
        let prefixStr := String.join (List.replicate (pmLevel lvl) "#")
        prefixStr ++ " " ++ joined
      else if ty = "paragraph" then joined
      else if ty = "bulletList" ∨ ty = "bullet_list" then
        String.intercalate "\n" (childTexts.map (fun t => "- " ++ t))
      else if ty = "orderedList" ∨ ty = "ordered_list" then
        String.intercalate "\n"
          ((childTexts.zip (List.range childTexts.length)).map
            (fun p => toString (p.2 + 1) ++ ". " ++ p.1))
      else if ty = "listItem" ∨ ty = "list_item" then joined
      else if ty = "blockquote" then
        String.intercalate "\n" (childTexts.map (fun t => "> " ++ t))
      else if ty = "codeBlock" ∨ ty = "code_block" then
        "```\n" ++ joined ++ "\n```"
      else if ty = "doc" then String.intercalate "\n\n" childTexts
      else joined

/-- The `childTexts` accumulation: a child's text is kept only when it is
truthy (non-empty). -/
def extractPMList (nodes : List PMNode) : List String :=
  match nodes with
  | [] => []
  | n :: ns =>
    let t := extractPMText n
    let rest := extractPMList ns
    if t = "" then rest else t :: rest

end

/-- `convertFigure`: `![label](src)`, or `""` when there is no `src`. -/
def convertFigure (b : DocBlock) : String :=
  match b.dataSrc with
  | none => ""
  | some src => "![" ++ optText b.dataLabel ++ "](" ++ src ++ ")"

/-- `convertVideo`: `[label or "Video"](src)`, or `""` when no `src`. -/
def convertVideo (b : DocBlock) : String :=
  match b.dataSrc with
  | none => ""
  | some src =>
    let label := match b.dataLabel with
      | some l => if l = "" then "Video" else l
      | none => "Video"
    "[" ++ label ++ "](" ++ src ++ ")"

/-- `convertEmbed`: `[Embedded content](src)`, or `""` when no `src`. -/
def convertEmbed (b : DocBlock) : String :=
  match b.dataSrc with
  | none => ""
  | some src => "[Embedded content](" ++ src ++ ")"

/-- `convertGist`: `[Code Gist](src)`, or the raw text when no `src`. -/
def convertGist (b : DocBlock) : String :=
  match b.dataSrc with
  | none => b.text
  | some src => "[Code Gist](" ++ src ++ ")"

/-- `convertProseMirrorContent` (banner / content blocks). -/
def convertProseMirrorContent (b : DocBlock) : String :=
  if b.content.isEmpty then b.text
  else String.intercalate "\n\n" (extractPMList b.content)

/-- `convertTiles`: one extra nesting level (tile → inner nodes). -/
def convertTiles (b : DocBlock) : String :=
  if b.content.isEmpty then ""
  else
    String.intercalate "\n\n"
      (extractPMList (b.content.flatMap PMNode.content))

/-- `convertBlock`: per-block-type dispatch; `none` models the
JavaScript `null` (the block contributes no line at all). -/
def convertBlock (block : DocBlock) (orderedIndex : Nat) : Option String :=
  if block.ty = "unstyled" then some block.text
  else if block.ty = "header-one" then some ("# " ++ block.text)
  else if block.ty = "header-two" then some ("## " ++ block.text)
  else if block.ty = "header-three" then some ("### " ++ block.text)
  else if block.ty = "header-step" then some ("**" ++ block.text ++ "**")
  else if block.ty = "ordered-list-item" then
    some (toString (orderedIndex + 1) ++ ". " ++ block.text)
  else if block.ty = "unordered-list-item" then some ("- " ++ block.text)
  else if block.ty = "figure" then some (convertFigure block)
  else if block.ty = "video" then some (convertVideo block)
  else if block.ty = "banner" then some (convertProseMirrorContent block)
  else if block.ty = "content" then some (convertProseMirrorContent block)
  else if block.ty = "tiles" then some (convertTiles block)
  else if block.ty = "embedd" then some (convertEmbed block)
  else if block.ty = "gist-block" then some (convertGist block)
  else if block.ty = "chart" then none
  else if block.text = "" then none else some block.text

/-- The block loop of `docToMarkdown`: reset the ordered counter on any
non-ordered block, convert with the current counter, then bump the
counter after an ordered block; keep every non-`null` line (the empty
string included). -/
def docToMarkdownLoop : List DocBlock → Nat → List String
  | [], _ => []
  | b :: bs, idx =>
    let idx1 := if b.ty ≠ "ordered-list-item" then 0 else idx
    let line := convertBlock b idx1
    let idx2 := if b.ty = "ordered-list-item" then idx1 + 1 else idx1
    match line with
    | none => docToMarkdownLoop bs idx2
    | some l => l :: docToMarkdownLoop bs idx2

/-- JavaScript `.trim()`: strip leading and trailing whitespace. -/
def trimStr (s : String) : String :=
  String.mk
    (((s.data.dropWhile Char.isWhitespace).reverse.dropWhile
        Char.isWhitespace).reverse)

/-- `docToMarkdown`: guard for an absent/empty block list, then join the
lines with a blank-line separator and trim. -/
def docToMarkdown (doc : DocContent) : String :=
  if doc.blocks.isEmpty then ""
  else trimStr (String.intercalate "\n\n" (docToMarkdownLoop doc.blocks 0))

/-! ## Record transformer (src/maven/transform.ts, article variant) -/

/-- `MavenKnowledgeDocument` (metadata as an insertion-ordered
association list). -/
structure MavenKnowledgeDocument where
  referenceId : String
  contentType : String
  title : String
  content : String
  metadata : List (String × String)

/-- `transformToMavenFormat` (the article variant, which converts the
block tree and falls back `content || article.name`). -/
def transformToMavenFormat (article : DocsieArticle) : MavenKnowledgeDocument :=
  let metadata :=
    [("source", "docsie"), ("docsie_id", article.id)]
      ++ (if article.tags ≠ [] then
            [("tags", String.intercalate "," article.tags)] else [])
      ++ (if article.slug ≠ "" then [("slug", article.slug)] else [])
      ++ (if article.template ≠ "" then [("template", article.template)] else [])
  let content := docToMarkdown article.doc
  { referenceId := article.id
    contentType := "MARKDOWN"
    title := article.name
    content := if content = "" then article.name else content
    metadata := metadata }

/-- `DocsieDocumentFull`: the plain-string content variant of the source
record (src/docsie/types.ts of the per-workspace-document variant);
only the fields its transformer reads. -/
structure DocsieDocumentFull where
  id : String
  title : String
  content : String
  workspaceId : Option String := none
  projectId : Option String := none
  tags : List String := []
  author : Option String := none
  slug : Option String := none
  status : Option String := none

/-- `transformToMavenFormat` of the document variant
(src/maven/transform.ts): the content string is passed through
unchanged — this variant applies no empty-content fallback. -/
def transformToMavenFormatDoc (doc : DocsieDocumentFull) : MavenKnowledgeDocument :=
  let optEntry (key : String) : Option String → List (String × String)
    | some v => [(key, v)]
    | none => []
  let metadata :=
    [("source", "docsie"), ("docsie_id", doc.id)]
      ++ optEntry "workspace_id" doc.workspaceId
      ++ optEntry "project_id" doc.projectId
      ++ (if doc.tags ≠ [] then
            [("tags", String.intercalate "," doc.tags)] else [])
      ++ optEntry "author" doc.author
      ++ optEntry "slug" doc.slug
      ++ optEntry "status" doc.status
  { referenceId := doc.id
    contentType := "MARKDOWN"
    title := doc.title
    content := doc.content
    metadata := metadata }

/-! ## Retry helper (src/utils/retry.ts)

The wrapped operation is modelled as a trace `op : Nat → Except ε α`
giving the outcome of its call on attempt `j` (attempts are numbered
from 1, as in the source loop). -/

/-- `RetryConfig` with defaults already resolved
(`maxRetries = 3`, `initialDelayMs = 1000`, `backoffMultiplier = 2`,
`maxDelayMs = 30000`). -/
structure RetryConfig where
  maxRetries : Nat := 3
  initialDelayMs : Nat := 1000
  backoffMultiplier : Nat := 2
  maxDelayMs : Nat := 30000

/-- Observable outcome of a `withRetry` run: the returned value or the
re-raised last error (`Except.error none` models the `throw undefined`
that a zero-attempt configuration produces), the number of calls made to
the operation, and the list of delays slept between attempts. -/
structure RetryTrace (ε α : Type) where
  result : Except (Option ε) α
  calls : Nat
  sleeps : List Nat

/-- The delay used before attempt `k + 2` (0-indexed):
`d 0 = initialDelayMs`, `d (k+1) = min (d k * backoffMultiplier) maxDelayMs`. -/
def backoffDelay (mult maxD init : Nat) : Nat → Nat
  | 0 => init
  | k + 1 => min (backoffDelay mult maxD init k * mult) maxD

/-- The first `k` delays of the backoff chain starting at `d`. -/
def delayChain (mult maxD : Nat) : Nat → Nat → List Nat
  | _, 0 => []
  | d, k + 1 => d :: delayChain mult maxD (min (d * mult) maxD) k

/-- `withRetry`'s attempt loop: `attempt` is the current attempt number,
`remaining` the number of attempts still allowed (including the current
one), `curDelay` the delay to sleep before the next attempt. -/
def withRetryAux (op : Nat → Except ε α) (mult maxD : Nat) :
    Nat → Nat → Nat → RetryTrace ε α
  | _, 0, _ => ⟨Except.error none, 0, []⟩
  | attempt, 1, _ =>
    match op attempt with
    | Except.ok v => ⟨Except.ok v, 1, []⟩
    | Except.error e => ⟨Except.error (some e), 1, []⟩
  | attempt, r + 2, curDelay =>
    match op attempt with
    | Except.ok v => ⟨Except.ok v, 1, []⟩
    | Except.error _ =>
      let rest :=
        withRetryAux op mult maxD (attempt + 1) (r + 1)
          (min (curDelay * mult) maxD)
      ⟨rest.result, rest.calls + 1, curDelay :: rest.sleeps⟩

/-- `withRetry`: run the operation up to `maxRetries` times with
exponential backoff, re-raising the last error on exhaustion. -/
def withRetry (op : Nat → Except ε α) (cfg : RetryConfig) : RetryTrace ε α :=
  withRetryAux op cfg.backoffMultiplier cfg.maxDelayMs 1 cfg.maxRetries
    cfg.initialDelayMs

/-! ## Destination uploader (src/maven/uploader.ts)

The destination API's per-document create call is modelled by
`att : Nat → Nat → Except String Unit`: `att i j` is the outcome of the
`j`-th attempt for the document at overall position `i`. -/

structure UploadError where
  docId : String
  error : String

structure UploadResult where
  total : Nat
  success : Nat
  failed : Nat
  errors : List UploadError

/-- One retry-wrapped create invocation as observed from outside: the
label passed to the retry helper, the number of create calls made, and
whether the document ended up counted as a success. -/
structure UploadStep where
  context : String
  calls : Nat
  ok : Bool

/-- `error instanceof Error ? error.message : String(error)` applied to
the value `withRetry` re-raises. -/
def retryErrMsg : Option String → String
  | some m => m
  | none => "undefined"

/-- `chunkArray`: split into slices of `size` (the source loop diverges
for `size = 0`, hence the positivity hypothesis). -/
def chunkArray (size : Nat) (h : 0 < size) : List α → List (List α)
  | [] => []
  | a :: l => (a :: l).take size :: chunkArray size h ((a :: l).drop size)
termination_by l => l.length
decreasing_by simp; omega

/-- The per-document body of the upload loop, threading the result
under construction, the step log, and the overall document index. -/
def uploadStepFold (rcfg : RetryConfig) (att : Nat → Nat → Except String Unit)
    (acc : UploadResult × List UploadStep × Nat)
    (doc : MavenKnowledgeDocument) : UploadResult × List UploadStep × Nat :=
  let res := acc.1
  let steps := acc.2.1
  let idx := acc.2.2
  let ctx := "upload " ++ doc.referenceId
  let tr := withRetry (att idx) rcfg
  match tr.result with
  | Except.ok _ =>
    (⟨res.total, res.success + 1, res.failed, res.errors⟩,
     steps ++ [⟨ctx, tr.calls, true⟩], idx + 1)
  | Except.error e =>
    (⟨res.total, res.success, res.failed + 1,
      res.errors ++ [⟨doc.referenceId, retryErrMsg e⟩]⟩,
     steps ++ [⟨ctx, tr.calls, false⟩], idx + 1)

/-- `MavenUploader.upload`: early return on empty input, otherwise chunk
the list and process every document of every chunk in order. -/
def upload (docs : List MavenKnowledgeDocument)
    (att : Nat → Nat → Except String Unit) (rcfg : RetryConfig)
    (chunkSize : Nat) (h : 0 < chunkSize) :
    UploadResult × List UploadStep :=
  let init : UploadResult := ⟨docs.length, 0, 0, []⟩
  if docs.isEmpty then (init, [])
  else
    let chunks := chunkArray chunkSize h docs
    let final := chunks.foldl
      (fun acc chunk => chunk.foldl (uploadStepFold rcfg att) acc)
      (init, [], 0)
    (final.1, final.2.1)

/-! ## Paginated fetch primitives -/

/-- `DocsieClient.fetchAllWithPagination` (page-number idiom,
src/docsie/client.ts): request page `k`, i.e. `remaining.take perPage`;
stop when a page is shorter than `perPage`, else continue on
`remaining.drop perPage`.  Returns (items, request count).  The source
loop diverges for `perPage = 0`, hence the positivity hypothesis. -/
def fetchAllWithPagination (perPage : Nat) (hP : 0 < perPage) :
    List α → List α × Nat
  | remaining =>
    if h : (remaining.take perPage).length < perPage then
      (remaining.take perPage, 1)
    else
      let rest := fetchAllWithPagination perPage hP (remaining.drop perPage)
      (remaining.take perPage ++ rest.1, rest.2 + 1)
termination_by remaining => remaining.length
decreasing_by
  rw [List.length_drop]
  have hge : perPage ≤ remaining.length := by
    by_contra hc
    push_neg at hc
    exact h (by
      rw [List.length_take]
      exact lt_of_le_of_lt (Nat.min_le_right _ _) hc)
  exact Nat.sub_lt (Nat.lt_of_lt_of_le hP hge) hP

/-- `DocsieClient.fetchAllPaginated` (offset + `next` idiom,
src/docsie/content.ts): the server answers with
`results = remaining.take limit` and `next = null` exactly when
`offset + limit ≥ count`, i.e. when `remaining.length ≤ limit`; the loop
stops when `next` is null or the page is short. -/
def fetchAllPaginated (limit : Nat) (hP : 0 < limit) :
    List α → List α × Nat
  | remaining =>
    if h : remaining.length ≤ limit ∨ (remaining.take limit).length < limit then
      (remaining.take limit, 1)
    else
      let rest := fetchAllPaginated limit hP (remaining.drop limit)
      (remaining.take limit ++ rest.1, rest.2 + 1)
termination_by remaining => remaining.length
decreasing_by
  rw [List.length_drop]
  push_neg at h
  exact Nat.sub_lt (Nat.lt_of_le_of_lt (Nat.zero_le limit) h.1) hP

/-! ## Source client error construction (src/docsie/client.ts and the
`fetchWithAuth` of src/docsie/content.ts) -/

/-- Outcome of one `fetch` call: a transport-level failure, or an HTTP
response with status, status text and body. -/
inductive FetchOutcome : Type where
  | network (msg : String)
  | http (status : Nat) (statusText : String) (body : String)

/-- What the client call ends with: a propagated network failure, a
thrown API `Error` (carrying only its message string), or the body. -/
inductive FetchError : Type where
  | network (msg : String)
  | api (msg : String)

/-- `response.ok`: status in the 2xx range. -/
def respOk (status : Nat) : Bool := 200 ≤ status && status ≤ 299

/-- `fetchWithAuth` of the rate-limited api_v2 client
(src/docsie/content.ts): a non-ok response throws
`Docsie API error: <status> <statusText> for <endpoint>`; a `fetch`
rejection propagates untouched. -/
def fetchWithAuth (endpoint : String) (outcome : FetchOutcome) :
    Except FetchError String :=
  match outcome with
  | FetchOutcome.network m => Except.error (FetchError.network m)
  | FetchOutcome.http status statusText body =>
    if respOk status then Except.ok body
    else
      Except.error (FetchError.api
        ("Docsie API error: " ++ toString status ++ " " ++ statusText
          ++ " for " ++ endpoint))

/-- `DocsieClient.get` of the v1 client variant (src/docsie/client.ts):
same control flow, but the thrown message omits the endpoint. -/
def getV1 (endpoint : String) (outcome : FetchOutcome) :
    Except FetchError String :=
  match endpoint, outcome with
  | _, FetchOutcome.network m => Except.error (FetchError.network m)
  | _, FetchOutcome.http status statusText body =>
    if respOk status then Except.ok body
    else
      Except.error (FetchError.api
        ("Docsie API error: " ++ toString status ++ " " ++ statusText))

/-- The message of a thrown API error (`""` otherwise). -/
def apiMsgOf : Except FetchError String → String
  | Except.error (FetchError.api m) => m
  | _ => ""

/-- Helper: is `pre` a prefix of `l`? -/
def hasPrefixL : List Char → List Char → Bool
  | [], _ => true
  | _ :: _, [] => false
  | a :: asr, b :: bs => a == b && hasPrefixL asr bs

/-- Helper: does `sub` occur inside `l`? -/
def hasInfixL (sub : List Char) : List Char → Bool
  | [] => hasPrefixL sub []
  | b :: bs => hasPrefixL sub (b :: bs) || hasInfixL sub bs

/-- Does the string `s` contain `sub` as a substring? -/
def containsSub (s sub : String) : Bool := hasInfixL sub.data s.data

/-! ## Sync orchestrator (the article-variant `DocsieSync.syncAll`)

Network effects are replaced by their outcomes: the fetched workspace
list and article list are parameters, the destination create calls are
the per-document attempt trace `att`, and the two `Date.now()` readings
are `t0`/`t1`.  The returned flag records whether the uploader was
invoked. -/

structure SyncResult where
  workspaces : Nat
  articles : Nat
  uploaded : Nat
  failed : Nat
  skipped : Nat
  errors : List UploadError
  durationMs : Nat

/-- The content filter of `syncAll`: `article.doc && article.doc.blocks
&& article.doc.blocks.length > 0`. -/
def hasBlocks (a : DocsieArticle) : Bool := !a.doc.blocks.isEmpty

/-- `DocsieSync.syncAll`: count workspaces, filter contentless articles
into `skipped`, short-circuit when nothing remains, else transform and
upload, folding the upload result into the sync result. -/
def syncAll (workspaces : List String) (articles : List DocsieArticle)
    (att : Nat → Nat → Except String Unit) (rcfg : RetryConfig)
    (chunkSize : Nat) (h : 0 < chunkSize) (t0 t1 : Nat) :
    SyncResult × Bool :=
  let articlesWithContent := articles.filter hasBlocks
  let skipped := (articles.filter (fun a => !hasBlocks a)).length
  if articlesWithContent.isEmpty then
    (⟨workspaces.length, 0, 0, 0, skipped, [], t1 - t0⟩, false)
  else
    let mavenDocs := articlesWithContent.map transformToMavenFormat
    let u := upload mavenDocs att rcfg chunkSize h
    (⟨workspaces.length, articlesWithContent.length, u.1.success,
      u.1.failed, skipped, u.1.errors, t1 - t0⟩, true)

/-! ## Converter lemmas -/

/-- Length of the trailing run of ordered-list items. -/
def countTrailingOrdered (l : List DocBlock) : Nat :=
  (l.reverse.takeWhile (fun b => b.ty == "ordered-list-item")).length

/-- Positional specification of the converter loop: the ordered counter
at each block equals the length of the trailing ordered run of the
already-processed prefix `past`. -/
def linesSpec : List DocBlock → List DocBlock → List String
  | _, [] => []
  | past, b :: bs =>
    let idx1 := if b.ty ≠ "ordered-list-item" then 0
                else countTrailingOrdered past
    match convertBlock b idx1 with
    | none => linesSpec (past ++ [b]) bs
    | some l => l :: linesSpec (past ++ [b]) bs

theorem countTrailingOrdered_append_ordered (l : List DocBlock)
    (b : DocBlock) (h : b.ty = "ordered-list-item") :
    countTrailingOrdered (l ++ [b]) = countTrailingOrdered l + 1 := by
  simp [countTrailingOrdered, List.takeWhile_cons, h]

theorem countTrailingOrdered_append_not (l : List DocBlock)
    (b : DocBlock) (h : ¬ b.ty = "ordered-list-item") :
    countTrailingOrdered (l ++ [b]) = 0 := by
  simp [countTrailingOrdered, List.takeWhile_cons, h]

theorem docToMarkdownLoop_eq_linesSpec (bs : List DocBlock) :
    ∀ past, docToMarkdownLoop bs (countTrailingOrdered past) =
      linesSpec past bs := by
  induction bs with
  | nil => intro past; rfl
  | cons b bs ih =>
    intro past
    by_cases hbt : b.ty = "ordered-list-item"
    · have h2 := countTrailingOrdered_append_ordered past b hbt
      simp only [docToMarkdownLoop, linesSpec, hbt, if_pos, ne_eq,
        not_true_eq_false, if_false, ite_false, ite_true]
      have h3 := ih (past ++ [b])
      rw [h2] at h3
      cases hcb : convertBlock b (countTrailingOrdered past) <;>
        simp [hcb, h3]
    · have h2 := countTrailingOrdered_append_not past b hbt
      simp only [docToMarkdownLoop, linesSpec, hbt, ne_eq,
        not_false_eq_true, if_true, if_false, ite_false, ite_true]
      have h3 := ih (past ++ [b])
      rw [h2] at h3
      cases hcb : convertBlock b 0 <;> simp [hcb, h3]

theorem linesSpec_append (xs : List DocBlock) :
    ∀ (ys past : List DocBlock),
      linesSpec past (xs ++ ys) =
        linesSpec past xs ++ linesSpec (past ++ xs) ys := by
  induction xs with
  | nil => intro ys past; simp [linesSpec]
  | cons x xs ih =>
    intro ys past
    simp only [List.cons_append, linesSpec]
    have h3 := ih ys (past ++ [x])
    have hassoc : past ++ [x] ++ xs = past ++ x :: xs := by simp
    rw [hassoc] at h3
    cases hcb : convertBlock x
        (if x.ty ≠ "ordered-list-item" then 0 else countTrailingOrdered past) <;>
      simp [hcb, h3]

theorem convertBlock_ordered (b : DocBlock)
    (h : b.ty = "ordered-list-item") (n : Nat) :
    convertBlock b n = some (toString (n + 1) ++ ". " ++ b.text) := by
  simp [convertBlock, h]

theorem convertBlock_figure_no_src (b : DocBlock) (h : b.ty = "figure")
    (hs : b.dataSrc = none) (n : Nat) : convertBlock b n = some "" := by
  simp [convertBlock, convertFigure, h, hs]

theorem docToMarkdownLoop_zero (bs : List DocBlock) :
    docToMarkdownLoop bs 0 = linesSpec [] bs :=
  docToMarkdownLoop_eq_linesSpec bs []

/-! ## Claim C6: ordered-list counter reset -/

/-- C6: each ordered-list item is rendered as `N. ` plus its text, `N`
being the 1-based counter over the contiguous run of ordered-list blocks
immediately before it (the counter resets whenever a non-ordered block
intervenes); the sequence [ordered, ordered, unstyled, ordered] yields
indices 1, 2, then 1 for the final item. -/
theorem claim_C6 :
    (∀ (blocks : List DocBlock) (i : Nat) (hi : i < blocks.length),
        blocks[i].ty = "ordered-list-item" →
        docToMarkdownLoop blocks 0 =
          docToMarkdownLoop (blocks.take i) 0
            ++ (toString (countTrailingOrdered (blocks.take i) + 1) ++ ". "
                  ++ blocks[i].text)
              :: docToMarkdownLoop (blocks.drop (i + 1))
                   (countTrailingOrdered (blocks.take i) + 1)) ∧
    docToMarkdown ⟨[⟨"ordered-list-item", "a", none, none, []⟩,
                    ⟨"ordered-list-item", "b", none, none, []⟩,
                    ⟨"unstyled", "c", none, none, []⟩,
                    ⟨"ordered-list-item", "d", none, none, []⟩]⟩
      = "1. a\n\n2. b\n\nc\n\n1. d" := by
  constructor
  · intro blocks i hi hty
    have hsplit : blocks = blocks.take i ++ blocks[i] :: blocks.drop (i + 1) := by
      rw [← List.drop_eq_getElem_cons hi, List.take_append_drop]
    have hmid : linesSpec (blocks.take i) (blocks[i] :: blocks.drop (i + 1)) =
        (toString (countTrailingOrdered (blocks.take i) + 1) ++ ". "
            ++ blocks[i].text)
          :: linesSpec (blocks.take i ++ [blocks[i]]) (blocks.drop (i + 1)) := by
      simp [linesSpec, hty, convertBlock_ordered _ hty]
    have htail : linesSpec (blocks.take i ++ [blocks[i]]) (blocks.drop (i + 1)) =
        docToMarkdownLoop (blocks.drop (i + 1))
          (countTrailingOrdered (blocks.take i) + 1) := by
      rw [← docToMarkdownLoop_eq_linesSpec,
        countTrailingOrdered_append_ordered _ _ hty]
    calc docToMarkdownLoop blocks 0
        = linesSpec [] blocks := docToMarkdownLoop_zero blocks
      _ = linesSpec [] (blocks.take i)
            ++ linesSpec (blocks.take i) (blocks[i] :: blocks.drop (i + 1)) := by
          conv_lhs => rw [hsplit]
          rw [linesSpec_append]
          simp
      _ = docToMarkdownLoop (blocks.take i) 0
            ++ (toString (countTrailingOrdered (blocks.take i) + 1) ++ ". "
                  ++ blocks[i].text)
              :: docToMarkdownLoop (blocks.drop (i + 1))
                   (countTrailingOrdered (blocks.take i) + 1) := by
          rw [hmid, htail, docToMarkdownLoop_zero]
  · rfl

/-- Witness for C6: the general part applied to the concrete four-block
sequence at the final ordered item (index 3), whose counter is 1. -/
theorem claim_C6_witness :
    docToMarkdownLoop [⟨"ordered-list-item", "a", none, none, []⟩,
        ⟨"ordered-list-item", "b", none, none, []⟩,
        ⟨"unstyled", "c", none, none, []⟩,
        ⟨"ordered-list-item", "d", none, none, []⟩] 0 =
      ["1. a", "2. b", "c", "1. d"] := by
  have h := claim_C6.1 [⟨"ordered-list-item", "a", none, none, []⟩,
      ⟨"ordered-list-item", "b", none, none, []⟩,
      ⟨"unstyled", "c", none, none, []⟩,
      ⟨"ordered-list-item", "d", none, none, []⟩] 3 (by decide) (by rfl)
  rw [h]
  rfl

/-! ## Claim C7: sourceless figure blocks -/

/-- C7 counterexample: with blocks [unstyled "a", sourceless figure,
unstyled "b"] the converter emits a stray double blank, so the output
differs from that of the same list with the figure removed. -/
theorem claim_C7_counterexample :
    docToMarkdown ⟨[⟨"unstyled", "a", none, none, []⟩,
        ⟨"figure", "", none, none, []⟩,
        ⟨"unstyled", "b", none, none, []⟩]⟩ = "a\n\n\n\nb" ∧
    docToMarkdown ⟨[⟨"unstyled", "a", none, none, []⟩,
        ⟨"unstyled", "b", none, none, []⟩]⟩ = "a\n\nb" ∧
    docToMarkdown ⟨[⟨"unstyled", "a", none, none, []⟩,
        ⟨"figure", "", none, none, []⟩,
        ⟨"unstyled", "b", none, none, []⟩]⟩ ≠
      docToMarkdown ⟨[⟨"unstyled", "a", none, none, []⟩,
        ⟨"unstyled", "b", none, none, []⟩]⟩ := by
  refine ⟨rfl, rfl, ?_⟩
  decide

/-- C7 (amended): a figure block with no source URL contributes an empty
string line that the join keeps (and it resets the ordered counter), so
an interior sourceless figure produces a stray double-blank separator;
the output equals the figure-removed output only when trimming can
absorb the empty line at the boundaries. -/
theorem claim_C7 (xs ys : List DocBlock) (f : DocBlock)
    (hty : f.ty = "figure") (hs : f.dataSrc = none) :
    docToMarkdownLoop (xs ++ f :: ys) 0 =
      docToMarkdownLoop xs 0 ++ "" :: docToMarkdownLoop ys 0 := by
  have hnot : ¬ f.ty = "ordered-list-item" := by rw [hty]; decide
  have hmid : linesSpec xs (f :: ys) =
      "" :: linesSpec (xs ++ [f]) ys := by
    simp [linesSpec, hnot, convertBlock_figure_no_src _ hty hs]
  have htail : linesSpec (xs ++ [f]) ys = docToMarkdownLoop ys 0 := by
    rw [← docToMarkdownLoop_eq_linesSpec,
      countTrailingOrdered_append_not _ _ hnot]
  calc docToMarkdownLoop (xs ++ f :: ys) 0
      = linesSpec [] (xs ++ f :: ys) := docToMarkdownLoop_zero _
    _ = linesSpec [] xs ++ linesSpec xs (f :: ys) := by
        rw [linesSpec_append]; simp
    _ = docToMarkdownLoop xs 0 ++ "" :: docToMarkdownLoop ys 0 := by
        rw [hmid, htail, docToMarkdownLoop_zero xs]

/-- Witness for C7: the amended statement applied to the concrete
three-block list of the counterexample. -/
theorem claim_C7_witness :
    docToMarkdownLoop [⟨"unstyled", "a", none, none, []⟩,
        ⟨"figure", "", none, none, []⟩,
        ⟨"unstyled", "b", none, none, []⟩] 0 = ["a", "", "b"] := by
  have h := claim_C7 [⟨"unstyled", "a", none, none, []⟩]
    [⟨"unstyled", "b", none, none, []⟩]
    ⟨"figure", "", none, none, []⟩ rfl rfl
  exact h

/-! ## Claim C1: empty-content fallback in the transformer -/

/-- C1 counterexample: a record whose converted content is empty and
whose title is also empty produces a TransformedDocument whose content
is literally the empty string, contradicting the claim that no
TransformedDocument ever has empty content. -/
theorem claim_C1_counterexample :
    docToMarkdown (DocsieArticle.mk "art-1" "" "" "" [] ⟨[]⟩).doc = "" ∧
    (transformToMavenFormat (DocsieArticle.mk "art-1" "" "" "" [] ⟨[]⟩)).content
      = "" := ⟨rfl, rfl⟩

/-- C1 (amended): a record whose converted content is the empty string
produces a TransformedDocument whose content equals its title, and a
TransformedDocument's content is empty only when both the converted
content and the title are empty — so a record with a nonempty title is
never given literally empty content. -/
theorem claim_C1 (a : DocsieArticle) :
    (docToMarkdown a.doc = "" → (transformToMavenFormat a).content = a.name) ∧
    ((transformToMavenFormat a).content = "" →
      a.name = "" ∧ docToMarkdown a.doc = "") := by
  constructor
  · intro h
    simp [transformToMavenFormat, h]
  · intro h
    by_cases hc : docToMarkdown a.doc = ""
    · simp [transformToMavenFormat, hc] at h
      exact ⟨h, hc⟩
    · simp [transformToMavenFormat, hc] at h

/-- Witness for C1: the amended statement applied to a concrete record
with empty block list and nonempty title. -/
theorem claim_C1_witness :
    (transformToMavenFormat
      (DocsieArticle.mk "art-2" "Guide" "" "" [] ⟨[]⟩)).content = "Guide" :=
  (claim_C1 (DocsieArticle.mk "art-2" "Guide" "" "" [] ⟨[]⟩)).1 rfl

/-! ## Pagination lemmas and Claim C2 -/

theorem fetchAllWithPagination_eq (P : Nat) (hP : 0 < P) (xs : List α) :
    fetchAllWithPagination P hP xs = (xs, xs.length / P + 1) := by
  generalize hn : xs.length = n
  induction n using Nat.strong_induction_on generalizing xs with
  | _ n ih =>
    subst hn
    rw [fetchAllWithPagination]
    by_cases hc : (xs.take P).length < P
    · rw [dif_pos hc]
      rw [List.length_take] at hc
      have hlt : xs.length < P := by omega
      rw [List.take_of_length_le (Nat.le_of_lt hlt), Nat.div_eq_of_lt hlt]
    · rw [dif_neg hc]
      rw [List.length_take] at hc
      have hge : P ≤ xs.length := by omega
      have hdec : (xs.drop P).length < xs.length := by
        rw [List.length_drop]; omega
      rw [ih _ hdec _ rfl]
      simp only [List.take_append_drop, List.length_drop]
      rw [Nat.div_eq_sub_div hP hge]

theorem fetchAllPaginated_eq (P : Nat) (hP : 0 < P) (xs : List α) :
    fetchAllPaginated P hP xs = (xs, (xs.length - 1) / P + 1) := by
  generalize hn : xs.length = n
  induction n using Nat.strong_induction_on generalizing xs with
  | _ n ih =>
    subst hn
    rw [fetchAllPaginated]
    by_cases hc : xs.length ≤ P ∨ (xs.take P).length < P
    · rw [dif_pos hc]
      have hle : xs.length ≤ P := by
        rcases hc with h | h
        · exact h
        · rw [List.length_take] at h; omega
      have hdiv : (xs.length - 1) / P = 0 := Nat.div_eq_of_lt (by omega)
      rw [List.take_of_length_le hle, hdiv]
    · rw [dif_neg hc]
      push_neg at hc
      have hgt : P < xs.length := by omega
      have hdec : (xs.drop P).length < xs.length := by
        rw [List.length_drop]; omega
      rw [ih _ hdec _ rfl]
      simp only [List.take_append_drop, List.length_drop]
      have harg : xs.length - P - 1 = xs.length - 1 - P := by omega
      rw [harg, ← Nat.div_eq_sub_div hP (by omega)]

/-- C2 counterexample: an empty list served with page size 1 is fetched
with one request under the page-number idiom (and one under the
offset idiom as well), while the claim predicts `ceil(0/1) = 0` requests
with no extra. -/
theorem claim_C2_counterexample :
    (fetchAllWithPagination 1 Nat.one_pos ([] : List Nat)).2 = 1 ∧
    (fetchAllPaginated 1 Nat.one_pos ([] : List Nat)).2 = 1 ∧
    (0 + 1 - 1) / 1 = 0 := by
  refine ⟨?_, ?_, rfl⟩
  · rw [fetchAllWithPagination_eq]; rfl
  · rw [fetchAllPaginated_eq]; rfl

/-- C2 (amended): the paginated fetch returns exactly the N served items
in order under both idioms; for N > 0 it issues `ceil(N/P)` requests,
plus exactly one extra confirmatory request when P divides N under the
page-number idiom and zero extra under the offset+next idiom; for N = 0
each idiom issues one request (the code cannot learn the list is empty
without asking). -/
theorem claim_C2 (P : Nat) (hP : 0 < P) (xs : List α) :
    (fetchAllWithPagination P hP xs).1 = xs ∧
    (fetchAllPaginated P hP xs).1 = xs ∧
    (0 < xs.length → ¬ P ∣ xs.length →
      (fetchAllWithPagination P hP xs).2 = (xs.length + P - 1) / P ∧
      (fetchAllPaginated P hP xs).2 = (xs.length + P - 1) / P) ∧
    (0 < xs.length → P ∣ xs.length →
      (fetchAllWithPagination P hP xs).2 = (xs.length + P - 1) / P + 1 ∧
      (fetchAllPaginated P hP xs).2 = (xs.length + P - 1) / P) ∧
    (xs.length = 0 →
      (fetchAllWithPagination P hP xs).2 = 1 ∧
      (fetchAllPaginated P hP xs).2 = 1) := by
  rw [fetchAllWithPagination_eq, fetchAllPaginated_eq]
  refine ⟨rfl, rfl, ?_, ?_, ?_⟩
  · intro hpos hnd
    have hceil : (xs.length + P - 1) / P = (xs.length - 1) / P + 1 := by
      have harg : xs.length + P - 1 = (xs.length - 1) + P := by omega
      rw [harg, Nat.add_div_right _ hP]
    have hsucc : xs.length / P =
        (xs.length - 1) / P + if P ∣ (xs.length - 1) + 1 then 1 else 0 := by
      have harg : xs.length = (xs.length - 1) + 1 := by omega
      conv_lhs => rw [harg]
      exact Nat.succ_div _ _
    rw [show (xs.length - 1) + 1 = xs.length by omega, if_neg hnd] at hsucc
    exact ⟨by omega, by omega⟩
  · intro hpos hd
    have hceil : (xs.length + P - 1) / P = (xs.length - 1) / P + 1 := by
      have harg : xs.length + P - 1 = (xs.length - 1) + P := by omega
      rw [harg, Nat.add_div_right _ hP]
    have hsucc : xs.length / P =
        (xs.length - 1) / P + if P ∣ (xs.length - 1) + 1 then 1 else 0 := by
      have harg : xs.length = (xs.length - 1) + 1 := by omega
      conv_lhs => rw [harg]
      exact Nat.succ_div _ _
    rw [show (xs.length - 1) + 1 = xs.length by omega, if_pos hd] at hsucc
    exact ⟨by omega, by omega⟩
  · intro h0
    rw [h0]
    simp

/-- Witness for C2: 4 items with page size 2 (the divisible case) are
returned whole, with 3 requests under the page-number idiom and 2 under
the offset idiom. -/
theorem claim_C2_witness :
    (fetchAllWithPagination 2 (by decide) [10, 20, 30, 40]).1
        = [10, 20, 30, 40] ∧
    (fetchAllWithPagination 2 (by decide) [10, 20, 30, 40]).2 = 3 ∧
    (fetchAllPaginated 2 (by decide) [10, 20, 30, 40]).2 = 2 := by
  have h := claim_C2 2 (by decide) [10, 20, 30, 40]
  have hd := h.2.2.2.1 (by decide) (by decide)
  exact ⟨h.1, by rw [hd.1]; decide, by rw [hd.2]; decide⟩

/-! ## Retry lemmas and Claim C4 -/

theorem withRetryAux_calls_le (op : Nat → Except ε α) (mult maxD : Nat) :
    ∀ (r attempt d : Nat),
      (withRetryAux op mult maxD attempt r d).calls ≤ r := by
  intro r
  induction r with
  | zero => intro attempt d; simp [withRetryAux]
  | succ r' ih =>
    intro attempt d
    cases r' with
    | zero =>
      cases hop : op attempt <;> simp [withRetryAux, hop]
    | succ r'' =>
      cases hop : op attempt with
      | ok v => simp [withRetryAux, hop]
      | error e =>
        simp only [withRetryAux, hop]
        have := ih (attempt + 1) (min (d * mult) maxD)
        omega

theorem withRetryAux_first_success (op : Nat → Except ε α) (mult maxD : Nat) :
    ∀ (k r attempt d : Nat) (v : α), k < r →
      (∀ j, j < k → (op (attempt + j)).isOk = false) →
      op (attempt + k) = Except.ok v →
      withRetryAux op mult maxD attempt r d =
        ⟨Except.ok v, k + 1, delayChain mult maxD d k⟩ := by
  intro k
  induction k with
  | zero =>
    intro r attempt d v hkr _ hok
    rw [Nat.add_zero] at hok
    cases r with
    | zero => omega
    | succ r' =>
      cases r' with
      | zero => simp [withRetryAux, hok, delayChain]
      | succ r'' => simp [withRetryAux, hok, delayChain]
  | succ k ih =>
    intro r attempt d v hkr hfail hok
    have h0 : (op attempt).isOk = false := by
      have := hfail 0 (Nat.succ_pos k)
      rwa [Nat.add_zero] at this
    obtain ⟨e, he⟩ : ∃ e, op attempt = Except.error e := by
      cases hop : op attempt with
      | ok w => rw [hop] at h0; simp [Except.isOk, Except.toBool] at h0
      | error e => exact ⟨e, rfl⟩
    cases r with
    | zero => omega
    | succ r' =>
      cases r' with
      | zero => omega
      | succ r'' =>
        have hrest := ih (r'' + 1) (attempt + 1) (min (d * mult) maxD) v
          (by omega)
          (fun j hj => by
            have := hfail (j + 1) (by omega)
            rwa [show attempt + (j + 1) = attempt + 1 + j by omega] at this)
          (by
            rw [show attempt + 1 + k = attempt + (k + 1) by omega]
            exact hok)
        simp only [withRetryAux, he, hrest, delayChain]

theorem withRetryAux_all_fail (op : Nat → Except ε α) (mult maxD : Nat) :
    ∀ (r : Nat), 1 ≤ r → ∀ (attempt d : Nat) (e : ε),
      (∀ j, j < r → (op (attempt + j)).isOk = false) →
      op (attempt + (r - 1)) = Except.error e →
      withRetryAux op mult maxD attempt r d =
        ⟨Except.error (some e), r, delayChain mult maxD d (r - 1)⟩ := by
  intro r
  induction r with
  | zero => intro h; omega
  | succ r' ih =>
    intro _ attempt d e hfail hlast
    cases r' with
    | zero =>
      rw [show Nat.succ 0 - 1 = 0 from rfl, Nat.add_zero] at hlast
      simp [withRetryAux, hlast, delayChain]
    | succ r'' =>
      obtain ⟨e0, he0⟩ : ∃ e0, op attempt = Except.error e0 := by
        have h0 := hfail 0 (Nat.succ_pos _)
        rw [Nat.add_zero] at h0
        cases hop : op attempt with
        | ok w => rw [hop] at h0; simp [Except.isOk, Except.toBool] at h0
        | error e0 => exact ⟨e0, rfl⟩
      have hrest := ih (by omega) (attempt + 1) (min (d * mult) maxD) e
        (fun j hj => by
          have := hfail (j + 1) (by omega)
          rwa [show attempt + (j + 1) = attempt + 1 + j by omega] at this)
        (by
          rw [show attempt + 1 + (r'' + 1 - 1) = attempt + (r'' + 2 - 1)
            by omega]
          exact hlast)
      simp only [withRetryAux, he0, hrest, delayChain, Nat.add_sub_cancel]

theorem exceptIsOk_true {ε α : Type} {x : Except ε α} (h : x.isOk = true) :
    ∃ v, x = Except.ok v := by
  cases x with
  | ok v => exact ⟨v, rfl⟩
  | error e => simp [Except.isOk, Except.toBool] at h

theorem exceptIsOk_false {ε α : Type} {x : Except ε α} (h : x.isOk = false) :
    ∃ e, x = Except.error e := by
  cases x with
  | ok v => simp [Except.isOk, Except.toBool] at h
  | error e => exact ⟨e, rfl⟩

theorem withRetry_first_success (cfg : RetryConfig) (op : Nat → Except ε α)
    (k : Nat) (v : α) (h1 : 1 ≤ k) (hk : k ≤ cfg.maxRetries)
    (hfail : ∀ j, 1 ≤ j → j < k → (op j).isOk = false)
    (hok : op k = Except.ok v) :
    withRetry op cfg =
      ⟨Except.ok v, k,
        delayChain cfg.backoffMultiplier cfg.maxDelayMs
          cfg.initialDelayMs (k - 1)⟩ := by
  have h := withRetryAux_first_success op cfg.backoffMultiplier
    cfg.maxDelayMs (k - 1) cfg.maxRetries 1 cfg.initialDelayMs v
    (by omega)
    (fun j hj => hfail (1 + j) (by omega) (by omega))
    (by rw [show 1 + (k - 1) = k by omega]; exact hok)
  rw [withRetry, h, show k - 1 + 1 = k by omega]

theorem withRetry_isOk_false (cfg : RetryConfig) (op : Nat → Except ε α)
    (hfail : ∀ j, (op j).isOk = false) :
    (withRetry op cfg).result.isOk = false := by
  cases hm : cfg.maxRetries with
  | zero => rw [withRetry, hm]; rfl
  | succ m =>
    obtain ⟨e, he⟩ := exceptIsOk_false (hfail (1 + m))
    have h := withRetryAux_all_fail op cfg.backoffMultiplier cfg.maxDelayMs
      (m + 1) (by omega) 1 cfg.initialDelayMs e
      (fun j hj => hfail (1 + j))
      (by rw [show 1 + (m + 1 - 1) = 1 + m by omega]; exact he)
    rw [withRetry, hm, h]
    rfl

/-- C4: `withRetry` calls the operation at most `maxRetries` times; a
first success on attempt `k ≤ maxRetries` is returned after exactly `k`
calls, having slept the first `k - 1` backoff delays (each delay
multiplied by the backoff multiplier and capped at `maxDelayMs` between
attempts, and no sleep after the final attempt); if every attempt fails,
the last error is re-raised after exactly `maxRetries` calls; in
particular an operation failing twice then succeeding is called exactly
3 times with total sleeping at least the sum of the first two backoff
delays. -/
theorem claim_C4 (cfg : RetryConfig) (op : Nat → Except ε α) :
    (withRetry op cfg).calls ≤ cfg.maxRetries ∧
    (∀ k v, 1 ≤ k → k ≤ cfg.maxRetries →
      (∀ j, 1 ≤ j → j < k → (op j).isOk = false) →
      op k = Except.ok v →
      withRetry op cfg =
        ⟨Except.ok v, k,
          delayChain cfg.backoffMultiplier cfg.maxDelayMs
            cfg.initialDelayMs (k - 1)⟩) ∧
    (∀ e, 1 ≤ cfg.maxRetries →
      (∀ j, 1 ≤ j → j ≤ cfg.maxRetries → (op j).isOk = false) →
      op cfg.maxRetries = Except.error e →
      withRetry op cfg =
        ⟨Except.error (some e), cfg.maxRetries,
          delayChain cfg.backoffMultiplier cfg.maxDelayMs
            cfg.initialDelayMs (cfg.maxRetries - 1)⟩) ∧
    (∀ v, 3 ≤ cfg.maxRetries →
      (op 1).isOk = false → (op 2).isOk = false → op 3 = Except.ok v →
      (withRetry op cfg).calls = 3 ∧
      backoffDelay cfg.backoffMultiplier cfg.maxDelayMs cfg.initialDelayMs 0 +
        backoffDelay cfg.backoffMultiplier cfg.maxDelayMs cfg.initialDelayMs 1
          ≤ (withRetry op cfg).sleeps.sum) := by
  refine ⟨withRetryAux_calls_le op _ _ _ _ _,
    withRetry_first_success cfg op, ?_, ?_⟩
  · intro e h1 hfail hlast
    have h := withRetryAux_all_fail op cfg.backoffMultiplier cfg.maxDelayMs
      cfg.maxRetries h1 1 cfg.initialDelayMs e
      (fun j hj => hfail (1 + j) (by omega) (by omega))
      (by rw [show 1 + (cfg.maxRetries - 1) = cfg.maxRetries by omega]
          exact hlast)
    rw [withRetry, h]
  · intro v h3 hf1 hf2 hok
    have h := withRetry_first_success cfg op 3 v (by omega) h3
      (fun j hj1 hj3 => by
        have : j = 1 ∨ j = 2 := by omega
        rcases this with h | h <;> rw [h] <;> assumption)
      hok
    rw [h]
    refine ⟨rfl, ?_⟩
    simp [delayChain, backoffDelay]

/-- An operation that fails on attempts 1 and 2 and succeeds on 3. -/
def c4WitnessOp : Nat → Except String Nat :=
  fun j => if j ≤ 2 then Except.error "boom" else Except.ok 42

/-- Witness for C4: under the default configuration, the
twice-failing-then-succeeding operation is called exactly 3 times and
sleeps at least 1000 + 2000 ms in total. -/
theorem claim_C4_witness :
    (withRetry c4WitnessOp ({} : RetryConfig)).calls = 3 ∧
    3000 ≤ (withRetry c4WitnessOp ({} : RetryConfig)).sleeps.sum := by
  have h := (claim_C4 ({} : RetryConfig) c4WitnessOp).2.2.2 42
    (by decide) (by decide) (by decide) (by rfl)
  refine ⟨h.1, ?_⟩
  have h2 := h.2
  rwa [show backoffDelay ({} : RetryConfig).backoffMultiplier
      ({} : RetryConfig).maxDelayMs ({} : RetryConfig).initialDelayMs 0 +
      backoffDelay ({} : RetryConfig).backoffMultiplier
      ({} : RetryConfig).maxDelayMs ({} : RetryConfig).initialDelayMs 1
        = 3000 from by decide] at h2

/-! ## Uploader lemmas -/

/-- Placeholder document used as a `getD` default. -/
def defaultDoc : MavenKnowledgeDocument := ⟨"", "", "", "", []⟩

/-- The step the uploader records for the document at position `idx`. -/
def stepOf (rcfg : RetryConfig) (att : Nat → Nat → Except String Unit)
    (idx : Nat) (d : MavenKnowledgeDocument) : UploadStep :=
  ⟨"upload " ++ d.referenceId, (withRetry (att idx) rcfg).calls,
    (withRetry (att idx) rcfg).result.isOk⟩

/-- The steps produced for a document list starting at position `idx`. -/
def stepsOf (rcfg : RetryConfig) (att : Nat → Nat → Except String Unit) :
    Nat → List MavenKnowledgeDocument → List UploadStep
  | _, [] => []
  | idx, d :: ds => stepOf rcfg att idx d :: stepsOf rcfg att (idx + 1) ds

/-- The error entries produced for a document list starting at `idx`. -/
def errorsOf (rcfg : RetryConfig) (att : Nat → Nat → Except String Unit) :
    Nat → List MavenKnowledgeDocument → List UploadError
  | _, [] => []
  | idx, d :: ds =>
    match (withRetry (att idx) rcfg).result with
    | Except.ok _ => errorsOf rcfg att (idx + 1) ds
    | Except.error e =>
      ⟨d.referenceId, retryErrMsg e⟩ :: errorsOf rcfg att (idx + 1) ds

theorem uploadFold_spec (rcfg : RetryConfig)
    (att : Nat → Nat → Except String Unit) :
    ∀ (l : List MavenKnowledgeDocument) (res : UploadResult)
      (steps : List UploadStep) (idx : Nat),
      l.foldl (uploadStepFold rcfg att) (res, steps, idx) =
        (⟨res.total,
          res.success + (stepsOf rcfg att idx l).countP (fun s => s.ok),
          res.failed + (stepsOf rcfg att idx l).countP (fun s => !s.ok),
          res.errors ++ errorsOf rcfg att idx l⟩,
         steps ++ stepsOf rcfg att idx l, idx + l.length) := by
  intro l
  induction l with
  | nil => intro res steps idx; simp [stepsOf, errorsOf]
  | cons d ds ih =>
    intro res steps idx
    rw [List.foldl_cons]
    cases hres : (withRetry (att idx) rcfg).result with
    | ok u =>
      have hiso : (withRetry (att idx) rcfg).result.isOk = true := by
        rw [hres]; rfl
      have hokv : (stepOf rcfg att idx d).ok = true := hiso
      have hstep : uploadStepFold rcfg att (res, steps, idx) d =
          (⟨res.total, res.success + 1, res.failed, res.errors⟩,
           steps ++ [stepOf rcfg att idx d], idx + 1) := by
        simp [uploadStepFold, hres, stepOf, hiso, Except.isOk, Except.toBool]
      rw [hstep, ih]
      have hcons : stepsOf rcfg att idx (d :: ds) =
          stepOf rcfg att idx d :: stepsOf rcfg att (idx + 1) ds := rfl
      have herr : errorsOf rcfg att idx (d :: ds) =
          errorsOf rcfg att (idx + 1) ds := by
        rw [errorsOf, hres]
      rw [hcons, herr]
      simp only [Prod.mk.injEq, UploadResult.mk.injEq, List.countP_cons, hokv]
      simp [List.append_assoc]
      try omega
    | error e =>
      have hiso : (withRetry (att idx) rcfg).result.isOk = false := by
        rw [hres]; rfl
      have hokv : (stepOf rcfg att idx d).ok = false := hiso
      have hstep : uploadStepFold rcfg att (res, steps, idx) d =
          (⟨res.total, res.success, res.failed + 1,
            res.errors ++ [⟨d.referenceId, retryErrMsg e⟩]⟩,
           steps ++ [stepOf rcfg att idx d], idx + 1) := by
        simp [uploadStepFold, hres, stepOf, hiso, Except.isOk, Except.toBool]
      rw [hstep, ih]
      have hcons : stepsOf rcfg att idx (d :: ds) =
          stepOf rcfg att idx d :: stepsOf rcfg att (idx + 1) ds := rfl
      have herr : errorsOf rcfg att idx (d :: ds) =
          ⟨d.referenceId, retryErrMsg e⟩ :: errorsOf rcfg att (idx + 1) ds := by
        rw [errorsOf, hres]
      rw [hcons, herr]
      simp only [Prod.mk.injEq, UploadResult.mk.injEq, List.countP_cons, hokv]
      simp [List.append_assoc]
      try omega

theorem chunkArray_flatten (size : Nat) (h : 0 < size) (l : List α) :
    (chunkArray size h l).flatten = l := by
  generalize hn : l.length = n
  induction n using Nat.strong_induction_on generalizing l with
  | _ n ih =>
    subst hn
    cases l with
    | nil => rw [chunkArray]; rfl
    | cons a l' =>
      rw [chunkArray, List.flatten_cons]
      have hdec : ((a :: l').drop size).length < (a :: l').length := by
        rw [List.length_drop]
        simp only [List.length_cons]
        omega
      rw [ih _ hdec _ rfl, List.take_append_drop]

theorem upload_spec (docs : List MavenKnowledgeDocument)
    (att : Nat → Nat → Except String Unit) (rcfg : RetryConfig)
    (cs : Nat) (h : 0 < cs) :
    upload docs att rcfg cs h =
      (⟨docs.length,
        (stepsOf rcfg att 0 docs).countP (fun s => s.ok),
        (stepsOf rcfg att 0 docs).countP (fun s => !s.ok),
        errorsOf rcfg att 0 docs⟩,
       stepsOf rcfg att 0 docs) := by
  rw [upload]
  by_cases hd : docs.isEmpty
  · have hnil : docs = [] := List.isEmpty_iff.mp hd
    subst hnil
    simp [stepsOf, errorsOf]
  · simp only [hd, Bool.false_eq_true, if_false]
    have hfold : (chunkArray cs h docs).foldl
        (fun acc chunk => chunk.foldl (uploadStepFold rcfg att) acc)
        (⟨docs.length, 0, 0, []⟩, [], 0) =
        docs.foldl (uploadStepFold rcfg att)
          (⟨docs.length, 0, 0, []⟩, [], 0) := by
      rw [← List.foldl_flatten, chunkArray_flatten]
    rw [hfold, uploadFold_spec]
    simp

theorem stepsOf_length (rcfg : RetryConfig)
    (att : Nat → Nat → Except String Unit) :
    ∀ (l : List MavenKnowledgeDocument) (idx : Nat),
      (stepsOf rcfg att idx l).length = l.length := by
  intro l
  induction l with
  | nil => intro idx; rfl
  | cons d ds ih => intro idx; simp [stepsOf, ih]

theorem errorsOf_length (rcfg : RetryConfig)
    (att : Nat → Nat → Except String Unit) :
    ∀ (l : List MavenKnowledgeDocument) (idx : Nat),
      (errorsOf rcfg att idx l).length =
        (stepsOf rcfg att idx l).countP (fun s => !s.ok) := by
  intro l
  induction l with
  | nil => intro idx; rfl
  | cons d ds ih =>
    intro idx
    cases hres : (withRetry (att idx) rcfg).result with
    | ok u =>
      have hok : (stepOf rcfg att idx d).ok = true := by
        simp [stepOf, hres, Except.isOk, Except.toBool]
      simp [stepsOf, errorsOf, hres, List.countP_cons, hok, ih]
    | error e =>
      have hok : (stepOf rcfg att idx d).ok = false := by
        simp [stepOf, hres, Except.isOk, Except.toBool]
      simp [stepsOf, errorsOf, hres, List.countP_cons, hok, ih]

theorem countP_bool_total (p : α → Bool) (l : List α) :
    l.countP p + l.countP (fun a => !p a) = l.length := by
  induction l with
  | nil => rfl
  | cons a l ih =>
    cases hp : p a <;> simp [List.countP_cons, hp] <;> omega

theorem errorsOf_docId_mem (rcfg : RetryConfig)
    (att : Nat → Nat → Except String Unit) :
    ∀ (l : List MavenKnowledgeDocument) (idx : Nat) (e : UploadError),
      e ∈ errorsOf rcfg att idx l →
      ∃ d ∈ l, e.docId = d.referenceId := by
  intro l
  induction l with
  | nil => intro idx e he; simp [errorsOf] at he
  | cons d ds ih =>
    intro idx e he
    cases hres : (withRetry (att idx) rcfg).result with
    | ok u =>
      rw [errorsOf, hres] at he
      obtain ⟨d', hd', he'⟩ := ih (idx + 1) e he
      exact ⟨d', List.mem_cons_of_mem _ hd', he'⟩
    | error err =>
      rw [errorsOf, hres] at he
      rcases List.mem_cons.mp he with h | h
      · exact ⟨d, List.mem_cons_self _ _, by rw [h]⟩
      · obtain ⟨d', hd', he'⟩ := ih (idx + 1) e h
        exact ⟨d', List.mem_cons_of_mem _ hd', he'⟩

theorem stepsOf_getD (rcfg : RetryConfig)
    (att : Nat → Nat → Except String Unit) :
    ∀ (l : List MavenKnowledgeDocument) (idx k : Nat), k < l.length →
      (stepsOf rcfg att idx l).getD k ⟨"", 0, false⟩ =
        stepOf rcfg att (idx + k) (l.getD k defaultDoc) := by
  intro l
  induction l with
  | nil => intro idx k hk; simp at hk
  | cons d ds ih =>
    intro idx k hk
    cases k with
    | zero => simp [stepsOf]
    | succ k' =>
      have hk' : k' < ds.length := by simp at hk; omega
      have := ih (idx + 1) k' hk'
      simp only [stepsOf, List.getD_cons_succ, this]
      rw [show idx + 1 + k' = idx + (k' + 1) by omega]

theorem stepsOf_all_ok (rcfg : RetryConfig)
    (att : Nat → Nat → Except String Unit) :
    ∀ (l : List MavenKnowledgeDocument) (idx : Nat),
      (∀ i, idx ≤ i → i < idx + l.length →
        (withRetry (att i) rcfg).result.isOk = true) →
      (stepsOf rcfg att idx l).countP (fun s => s.ok) = l.length ∧
      (stepsOf rcfg att idx l).countP (fun s => !s.ok) = 0 ∧
      errorsOf rcfg att idx l = [] := by
  intro l
  induction l with
  | nil => intro idx _; exact ⟨rfl, rfl, rfl⟩
  | cons d ds ih =>
    intro idx hall
    have hhead : (withRetry (att idx) rcfg).result.isOk = true := by
      apply hall idx (Nat.le_refl idx)
      simp
    obtain ⟨u, hu⟩ := exceptIsOk_true hhead
    have htail := ih (idx + 1) (fun i h1 h2 => by
      apply hall i (by omega)
      simp only [List.length_cons]
      omega)
    have hok : (stepOf rcfg att idx d).ok = true := hhead
    refine ⟨?_, ?_, ?_⟩
    · simp [stepsOf, List.countP_cons, hok, htail.1]
    · simp [stepsOf, List.countP_cons, hok, htail.2.1]
    · rw [errorsOf, hu]
      exact htail.2.2

theorem stepsOf_one_fail (rcfg : RetryConfig)
    (att : Nat → Nat → Except String Unit) :
    ∀ (l : List MavenKnowledgeDocument) (idx f : Nat),
      idx ≤ f → f < idx + l.length →
      (∀ i, idx ≤ i → i < idx + l.length → i ≠ f →
        (withRetry (att i) rcfg).result.isOk = true) →
      (withRetry (att f) rcfg).result.isOk = false →
      (stepsOf rcfg att idx l).countP (fun s => s.ok) = l.length - 1 ∧
      (stepsOf rcfg att idx l).countP (fun s => !s.ok) = 1 ∧
      (errorsOf rcfg att idx l).map (fun e => e.docId)
        = [(l.getD (f - idx) defaultDoc).referenceId] := by
  intro l
  induction l with
  | nil => intro idx f h1 h2 _ _; simp at h2; omega
  | cons d ds ih =>
    intro idx f h1 h2 hok hf
    by_cases hif : idx = f
    · subst hif
      obtain ⟨e, he⟩ := exceptIsOk_false hf
      have htail := stepsOf_all_ok rcfg att ds (idx + 1) (fun i hi1 hi2 => by
        apply hok i (by omega) (by
          simp only [List.length_cons]
          omega)
        omega)
      have hokv : (stepOf rcfg att idx d).ok = false := hf
      refine ⟨?_, ?_, ?_⟩
      · simp [stepsOf, List.countP_cons, hokv, htail.1]
      · simp [stepsOf, List.countP_cons, hokv, htail.2.1]
      · rw [errorsOf, he]
        simp [htail.2.2]
    · have hlt : idx < f := by omega
      have hhead : (withRetry (att idx) rcfg).result.isOk = true := by
        apply hok idx (Nat.le_refl idx) (by simp) hif
      obtain ⟨u, hu⟩ := exceptIsOk_true hhead
      have hdsne : 1 ≤ ds.length := by
        simp only [List.length_cons] at h2
        omega
      have htail := ih (idx + 1) f (by omega) (by
          simp only [List.length_cons] at h2
          omega)
        (fun i hi1 hi2 hne => hok i (by omega) (by
          simp only [List.length_cons]
          omega) hne)
        hf
      have hokv : (stepOf rcfg att idx d).ok = true := hhead
      refine ⟨?_, ?_, ?_⟩
      · simp only [stepsOf, List.countP_cons, hokv, List.length_cons]
        simp
        omega
      · simp [stepsOf, List.countP_cons, hokv, htail.2.1]
      · rw [errorsOf, hu]
        rw [htail.2.2]
        have hgd : (d :: ds).getD (f - idx) defaultDoc =
            ds.getD (f - (idx + 1)) defaultDoc := by
          rw [show f - idx = (f - (idx + 1)) + 1 by omega,
            List.getD_cons_succ]
        rw [hgd]

/-! ## Claim C10: UploadResult accounting invariants -/

/-- C10: for every input list and every pattern of create-call outcomes,
`upload` returns `total` equal to the input length,
`success + failed = total`, and `errors.length = failed`; empty input
yields the all-zero result with no create calls. -/
theorem claim_C10 (docs : List MavenKnowledgeDocument)
    (att : Nat → Nat → Except String Unit) (rcfg : RetryConfig)
    (cs : Nat) (h : 0 < cs) :
    (upload docs att rcfg cs h).1.total = docs.length ∧
    (upload docs att rcfg cs h).1.success + (upload docs att rcfg cs h).1.failed
      = (upload docs att rcfg cs h).1.total ∧
    (upload docs att rcfg cs h).1.errors.length
      = (upload docs att rcfg cs h).1.failed ∧
    (docs = [] → upload docs att rcfg cs h = (⟨0, 0, 0, []⟩, [])) := by
  rw [upload_spec]
  refine ⟨rfl, ?_, ?_, ?_⟩
  · have hc := countP_bool_total (fun s => s.ok) (stepsOf rcfg att 0 docs)
    rw [stepsOf_length] at hc
    exact hc
  · exact errorsOf_length rcfg att docs 0
  · intro hd
    subst hd
    rfl

/-- Upload witness fixture: two documents. -/
def uploadDocsW : List MavenKnowledgeDocument :=
  [⟨"dA", "MARKDOWN", "A", "a", []⟩, ⟨"dB", "MARKDOWN", "B", "b", []⟩]

/-- Upload witness outcomes: document 0 succeeds immediately, document 1
fails every attempt. -/
def uploadAttW : Nat → Nat → Except String Unit :=
  fun i _ => if i = 0 then Except.ok () else Except.error "boom"

/-- Witness for C10: the invariants at a concrete two-document upload. -/
theorem claim_C10_witness :
    (upload uploadDocsW uploadAttW ({} : RetryConfig) 50 (by decide)).1.total
        = 2 ∧
    (upload uploadDocsW uploadAttW ({} : RetryConfig) 50 (by decide)).1.success
        + (upload uploadDocsW uploadAttW ({} : RetryConfig) 50
            (by decide)).1.failed = 2 ∧
    (upload uploadDocsW uploadAttW ({} : RetryConfig) 50
        (by decide)).1.errors.length
      = (upload uploadDocsW uploadAttW ({} : RetryConfig) 50
          (by decide)).1.failed := by
  have h := claim_C10 uploadDocsW uploadAttW ({} : RetryConfig) 50 (by decide)
  exact ⟨by rw [h.1]; rfl, by rw [h.2.1, h.1]; rfl, h.2.2.1⟩

/-! ## Claim C5: per-document retry wrapping -/

/-- C5: every document of the input list gives rise to exactly one
retry-wrapped create invocation, labelled `upload ` followed by that
document's reference id; the success counter counts exactly the
documents whose wrapped create succeeded, and a document whose create
succeeds on some attempt `k ≤ maxRetries` after `k - 1` transient
failures is recorded as a success (with exactly `k` create calls). -/
theorem claim_C5 (docs : List MavenKnowledgeDocument)
    (att : Nat → Nat → Except String Unit) (rcfg : RetryConfig)
    (cs : Nat) (h : 0 < cs) (i : Nat) (hi : i < docs.length) :
    (upload docs att rcfg cs h).2.length = docs.length ∧
    ((upload docs att rcfg cs h).2.getD i ⟨"", 0, false⟩).context
        = "upload " ++ (docs.getD i defaultDoc).referenceId ∧
    (upload docs att rcfg cs h).1.success =
      ((upload docs att rcfg cs h).2.filter (fun s => s.ok)).length ∧
    (∀ k v, 1 ≤ k → k ≤ rcfg.maxRetries →
      (∀ j, 1 ≤ j → j < k → (att i j).isOk = false) →
      att i k = Except.ok v →
      ((upload docs att rcfg cs h).2.getD i ⟨"", 0, false⟩).ok = true ∧
      ((upload docs att rcfg cs h).2.getD i ⟨"", 0, false⟩).calls = k) := by
  rw [upload_spec]
  have hget := stepsOf_getD rcfg att docs 0 i hi
  rw [Nat.zero_add] at hget
  refine ⟨stepsOf_length rcfg att docs 0, ?_, ?_, ?_⟩
  · rw [hget]
    rfl
  · exact List.countP_eq_length_filter _ _
  · intro k v h1 hk hfail hok
    have hr := withRetry_first_success rcfg (att i) k v h1 hk hfail hok
    rw [hget]
    constructor
    · show (withRetry (att i) rcfg).result.isOk = true
      rw [hr]
      rfl
    · show (withRetry (att i) rcfg).calls = k
      rw [hr]

/-- Witness for C5: at the concrete two-document upload, document 0's
step is labelled with its reference id and is recorded as a success
after one call. -/
theorem claim_C5_witness :
    (upload uploadDocsW uploadAttW ({} : RetryConfig) 50 (by decide)).2.length
        = 2 ∧
    ((upload uploadDocsW uploadAttW ({} : RetryConfig) 50
        (by decide)).2.getD 0 ⟨"", 0, false⟩).context = "upload dA" ∧
    ((upload uploadDocsW uploadAttW ({} : RetryConfig) 50
        (by decide)).2.getD 0 ⟨"", 0, false⟩).ok = true ∧
    ((upload uploadDocsW uploadAttW ({} : RetryConfig) 50
        (by decide)).2.getD 0 ⟨"", 0, false⟩).calls = 1 := by
  have h := claim_C5 uploadDocsW uploadAttW ({} : RetryConfig) 50 (by decide)
    0 (by decide)
  have hk := h.2.2.2 1 () (by decide) (by decide)
    (fun j hj1 hj2 => by omega) (by rfl)
  exact ⟨h.1, h.2.1, hk.1, hk.2⟩

/-! ## Claim C3: partial-failure isolation -/

/-- C3: in a batch of K documents where exactly the document at position
`f` permanently fails (its create call fails on every attempt) and every
other document succeeds within the retry budget, `upload` reports
`success = K - 1`, `failed = 1`, exactly one error entry carrying the
failing document's reference id, and all K documents are attempted (no
early termination). -/
theorem claim_C3 (docs : List MavenKnowledgeDocument)
    (att : Nat → Nat → Except String Unit) (rcfg : RetryConfig)
    (cs : Nat) (h : 0 < cs) (f : Nat) (hf : f < docs.length)
    (hfFail : ∀ j, (att f j).isOk = false)
    (hOthers : ∀ i, i < docs.length → i ≠ f →
      ∃ k v, 1 ≤ k ∧ k ≤ rcfg.maxRetries ∧ att i k = Except.ok v ∧
        ∀ j, 1 ≤ j → j < k → (att i j).isOk = false) :
    (upload docs att rcfg cs h).1.success = docs.length - 1 ∧
    (upload docs att rcfg cs h).1.failed = 1 ∧
    (upload docs att rcfg cs h).1.errors.map (fun e => e.docId)
      = [(docs.getD f defaultDoc).referenceId] ∧
    (upload docs att rcfg cs h).2.length = docs.length := by
  have hokAt : ∀ i, 0 ≤ i → i < 0 + docs.length → i ≠ f →
      (withRetry (att i) rcfg).result.isOk = true := by
    intro i _ hi hne
    rw [Nat.zero_add] at hi
    obtain ⟨k, v, h1, hk, hok, hfail⟩ := hOthers i hi hne
    rw [withRetry_first_success rcfg (att i) k v h1 hk hfail hok]
    rfl
  have hfOk : (withRetry (att f) rcfg).result.isOk = false :=
    withRetry_isOk_false rcfg (att f) hfFail
  have hcount := stepsOf_one_fail rcfg att docs 0 f (Nat.zero_le f)
    (by omega) hokAt hfOk
  rw [Nat.sub_zero] at hcount
  rw [upload_spec]
  exact ⟨hcount.1, hcount.2.1, hcount.2.2,
    stepsOf_length rcfg att docs 0⟩

/-- Witness for C3: in the concrete two-document upload where document 1
permanently fails, the result is 1 success, 1 failure, and the single
error entry names document 1's reference id. -/
theorem claim_C3_witness :
    (upload uploadDocsW uploadAttW ({} : RetryConfig) 50 (by decide)).1.success
        = 1 ∧
    (upload uploadDocsW uploadAttW ({} : RetryConfig) 50 (by decide)).1.failed
        = 1 ∧
    (upload uploadDocsW uploadAttW ({} : RetryConfig) 50
        (by decide)).1.errors.map (fun e => e.docId) = ["dB"] ∧
    (upload uploadDocsW uploadAttW ({} : RetryConfig) 50 (by decide)).2.length
        = 2 := by
  have h := claim_C3 uploadDocsW uploadAttW ({} : RetryConfig) 50 (by decide)
    1 (by decide)
    (fun j => by rfl)
    (fun i hilen hine => by
      refine ⟨1, (), by decide, by decide, ?_, fun j hj1 hj2 => by omega⟩
      have : i = 0 := by
        simp [uploadDocsW] at hilen
        omega
      rw [this]
      rfl)
  exact ⟨h.1, h.2.1, h.2.2.1, h.2.2.2⟩

/-! ## Claim C8: skip filter and short-circuit in the orchestrator -/

theorem upload_counts (docs : List MavenKnowledgeDocument)
    (att : Nat → Nat → Except String Unit) (rcfg : RetryConfig)
    (cs : Nat) (h : 0 < cs) :
    (upload docs att rcfg cs h).1.success
      + (upload docs att rcfg cs h).1.failed = docs.length := by
  rw [upload_spec]
  have hc := countP_bool_total (fun s => s.ok) (stepsOf rcfg att 0 docs)
  rw [stepsOf_length] at hc
  exact hc

theorem upload_errors_mem (docs : List MavenKnowledgeDocument)
    (att : Nat → Nat → Except String Unit) (rcfg : RetryConfig)
    (cs : Nat) (h : 0 < cs) (e : UploadError)
    (he : e ∈ (upload docs att rcfg cs h).1.errors) :
    ∃ d ∈ docs, e.docId = d.referenceId := by
  rw [upload_spec] at he
  exact errorsOf_docId_mem rcfg att docs 0 e he

/-- C8: the orchestrator counts every fetched record with no content
blocks as skipped; such records are never handed to the uploader (the
uploaded and failed counters sum to the number of records with blocks,
and every error entry names a record that has blocks); and when no
record has blocks, `syncAll` returns immediately with zero counts, an
empty error list, the elapsed duration, and the uploader is never
invoked. -/
theorem claim_C8 (ws : List String) (articles : List DocsieArticle)
    (att : Nat → Nat → Except String Unit) (rcfg : RetryConfig)
    (cs : Nat) (h : 0 < cs) (t0 t1 : Nat) :
    (syncAll ws articles att rcfg cs h t0 t1).1.skipped
        = (articles.filter (fun a => a.doc.blocks.isEmpty)).length ∧
    (syncAll ws articles att rcfg cs h t0 t1).1.uploaded
        + (syncAll ws articles att rcfg cs h t0 t1).1.failed
      = (articles.filter hasBlocks).length ∧
    (∀ e, e ∈ (syncAll ws articles att rcfg cs h t0 t1).1.errors →
      ∃ a ∈ articles, a.doc.blocks ≠ [] ∧ e.docId = a.id) ∧
    ((∀ a ∈ articles, a.doc.blocks = []) →
      syncAll ws articles att rcfg cs h t0 t1
        = (⟨ws.length, 0, 0, 0, articles.length, [], t1 - t0⟩, false)) := by
  have hskip : (articles.filter (fun a => !hasBlocks a)).length
      = (articles.filter (fun a => a.doc.blocks.isEmpty)).length := by
    simp [hasBlocks]
  by_cases hemp : (articles.filter hasBlocks).isEmpty
  · have hnil : articles.filter hasBlocks = [] := List.isEmpty_iff.mp hemp
    have hres : syncAll ws articles att rcfg cs h t0 t1 =
        (⟨ws.length, 0, 0, 0,
          (articles.filter (fun a => !hasBlocks a)).length, [], t1 - t0⟩,
         false) := by
      rw [syncAll]
      simp only [hemp, if_true, ite_true]
    refine ⟨?_, ?_, ?_, ?_⟩
    · rw [hres]
      exact hskip
    · rw [hres, hnil]
      rfl
    · rw [hres]
      intro e he
      simp at he
    · intro hall
      rw [hres]
      have hlen : (articles.filter (fun a => !hasBlocks a)).length
          = articles.length := by
        rw [List.filter_eq_self.mpr (fun a ha => by
          simp [hasBlocks, hall a ha])]
      rw [hlen]
  · have hres : syncAll ws articles att rcfg cs h t0 t1 =
        (⟨ws.length, (articles.filter hasBlocks).length,
          (upload ((articles.filter hasBlocks).map transformToMavenFormat)
            att rcfg cs h).1.success,
          (upload ((articles.filter hasBlocks).map transformToMavenFormat)
            att rcfg cs h).1.failed,
          (articles.filter (fun a => !hasBlocks a)).length,
          (upload ((articles.filter hasBlocks).map transformToMavenFormat)
            att rcfg cs h).1.errors, t1 - t0⟩,
         true) := by
      rw [syncAll]
      simp only [hemp, if_false, Bool.false_eq_true, ite_false]
    refine ⟨?_, ?_, ?_, ?_⟩
    · rw [hres]
      exact hskip
    · rw [hres]
      show (upload _ att rcfg cs h).1.success
          + (upload _ att rcfg cs h).1.failed = _
      rw [upload_counts]
      exact List.length_map _ _
    · rw [hres]
      intro e he
      obtain ⟨d, hd, hid⟩ := upload_errors_mem _ att rcfg cs h e he
      obtain ⟨a, ha, hta⟩ := List.mem_map.mp hd
      have hmem := List.mem_filter.mp ha
      refine ⟨a, hmem.1, ?_, ?_⟩
      · intro hblocks
        have : hasBlocks a = false := by
          simp [hasBlocks, hblocks]
        rw [this] at hmem
        exact absurd hmem.2 (by simp)
      · rw [hid, ← hta]
        rfl
    · intro hall
      exact absurd (List.isEmpty_iff.mpr
        (List.filter_eq_nil_iff.mpr (fun a ha => by
          simp [hasBlocks, hall a ha]))) hemp

/-- Sync witness fixture: one contentless article and one article with a
paragraph block. -/
def syncArticlesW : List DocsieArticle :=
  [⟨"a1", "Empty", "", "", [], ⟨[]⟩⟩,
   ⟨"a2", "Full", "", "", [], ⟨[⟨"unstyled", "hello", none, none, []⟩]⟩⟩]

/-- Witness for C8: with one contentless and one contentful article the
orchestrator skips exactly one record and attempts exactly one upload;
with only the contentless article it short-circuits without invoking the
uploader. -/
theorem claim_C8_witness :
    (syncAll ["w1"] syncArticlesW uploadAttW ({} : RetryConfig) 50
        (by decide) 5 12).1.skipped = 1 ∧
    (syncAll ["w1"] syncArticlesW uploadAttW ({} : RetryConfig) 50
        (by decide) 5 12).1.uploaded
      + (syncAll ["w1"] syncArticlesW uploadAttW ({} : RetryConfig) 50
          (by decide) 5 12).1.failed = 1 ∧
    syncAll ["w1"] [⟨"a1", "Empty", "", "", [], ⟨[]⟩⟩] uploadAttW
        ({} : RetryConfig) 50 (by decide) 5 12
      = (⟨1, 0, 0, 0, 1, [], 7⟩, false) := by
  have h := claim_C8 ["w1"] syncArticlesW uploadAttW ({} : RetryConfig) 50
    (by decide) 5 12
  have h2 := claim_C8 ["w1"] [⟨"a1", "Empty", "", "", [], ⟨[]⟩⟩] uploadAttW
    ({} : RetryConfig) 50 (by decide) 5 12
  refine ⟨by rw [h.1]; rfl, by rw [h.2.1]; rfl, ?_⟩
  have hsc := h2.2.2.2 (fun a ha => by
    simp only [List.mem_singleton] at ha
    rw [ha])
  rw [hsc]
  rfl

/-! ## Claim C9: API error construction -/

theorem hasPrefixL_append (l r : List Char) : hasPrefixL l (l ++ r) = true := by
  induction l with
  | nil => rfl
  | cons a asr ih => simp [hasPrefixL, ih]

theorem hasInfixL_suffix (sub : List Char) :
    ∀ pre, hasInfixL sub (pre ++ sub) = true := by
  intro pre
  induction pre with
  | nil =>
    simp only [List.nil_append]
    cases sub with
    | nil => rfl
    | cons c cs =>
      have hp := hasPrefixL_append (c :: cs) []
      rw [List.append_nil] at hp
      simp [hasInfixL, hp]
  | cons p ps ih =>
    simp [hasInfixL, ih]

theorem containsSub_append (p e : String) : containsSub (p ++ e) e = true := by
  unfold containsSub
  rw [String.data_append p e]
  exact hasInfixL_suffix e.data p.data

/-- C9 counterexample: the v1 client variant's error for a 404 on
`/workspaces` carries the status code and status text but not the
endpoint path, contradicting the claim that every API error carries the
requested endpoint. -/
theorem claim_C9_counterexample :
    getV1 "/workspaces" (FetchOutcome.http 404 "Not Found" "")
      = Except.error (FetchError.api "Docsie API error: 404 Not Found") ∧
    containsSub "Docsie API error: 404 Not Found" "/workspaces" = false := by
  constructor
  · rfl
  · decide

/-- C9 (amended): on a non-2xx response the rate-limited api_v2 client
fails with an API error whose message carries the status code, status
text, and the requested endpoint path, while the v1 client variant's
API error carries the status code and status text but omits the
endpoint; a transport-level network failure propagates unchanged through
both clients, never wrapped in an API error. -/
theorem claim_C9 (endpoint statusText body m : String) (status : Nat)
    (hnok : respOk status = false) :
    fetchWithAuth endpoint (FetchOutcome.http status statusText body)
      = Except.error (FetchError.api
          ("Docsie API error: " ++ toString status ++ " " ++ statusText
            ++ " for " ++ endpoint)) ∧
    containsSub (apiMsgOf (fetchWithAuth endpoint
        (FetchOutcome.http status statusText body))) endpoint = true ∧
    getV1 endpoint (FetchOutcome.http status statusText body)
      = Except.error (FetchError.api
          ("Docsie API error: " ++ toString status ++ " " ++ statusText)) ∧
    fetchWithAuth endpoint (FetchOutcome.network m)
      = Except.error (FetchError.network m) ∧
    getV1 endpoint (FetchOutcome.network m)
      = Except.error (FetchError.network m) := by
  have h1 : fetchWithAuth endpoint (FetchOutcome.http status statusText body)
      = Except.error (FetchError.api
          ("Docsie API error: " ++ toString status ++ " " ++ statusText
            ++ " for " ++ endpoint)) := by
    simp [fetchWithAuth, hnok]
  refine ⟨h1, ?_, by simp [getV1, hnok], rfl, rfl⟩
  rw [h1]
  exact containsSub_append _ endpoint

/-- Witness for C9: a concrete 500 response on `/workspaces/` produces
the full api_v2 error message, which contains the endpoint. -/
theorem claim_C9_witness :
    fetchWithAuth "/workspaces/" (FetchOutcome.http 500 "Server Error" "")
      = Except.error (FetchError.api
          "Docsie API error: 500 Server Error for /workspaces/") ∧
    containsSub "Docsie API error: 500 Server Error for /workspaces/"
      "/workspaces/" = true := by
  have h := claim_C9 "/workspaces/" "Server Error" "" "reset" 500 (by decide)
  constructor
  · rw [h.1]
    rfl
  · have h2 := h.2.1
    rwa [show apiMsgOf (fetchWithAuth "/workspaces/"
        (FetchOutcome.http 500 "Server Error" ""))
      = "Docsie API error: 500 Server Error for /workspaces/" from rfl] at h2

end DocsieConnector
